import Mathlib

/-!
Shallow embedding of the HanBingo turn/phase engine (src/App.tsx and the
accompanying type and service modules), together with proofs of the spec's
claims about it.  Pure functions of the source become Lean functions; the
React component state becomes an explicit `GameState` record and the event
handlers become state transformers.  JavaScript `Record<string,string>`
objects are modelled as functions `String → Option String`; JavaScript
truthiness of a string value (`undefined` and `""` are falsy) is modelled
explicitly.  The `shuffle` utility (`[...a].sort(() => Math.random()-0.5)`)
always returns a permutation of its input, so call sites take the shuffle
as an explicit function parameter assumed to permute its argument.
-/

set_option maxHeartbeats 1000000

namespace HanBingo

/-- One quizzable item (`HanjaData` in types.ts): a Hanja character with its
meaning (`hun`), sound (`eum`) and combined label. -/
structure HanjaData where
  id : String
  char : String
  hun : String
  eum : String
  hunEum : String
deriving DecidableEq

/-- One board cell (`Cell` in types.ts). -/
structure Cell where
  id : String
  hanja : HanjaData
  isFlipped : Bool
  isPeeked : Bool
  gridIndex : Nat
deriving DecidableEq

/-- Model of `board[i].isFlipped` for a JS array access that is in range; out-of-range
access is mapped to `false` (the claims below always carry the length
hypothesis that keeps every access in range). -/
def flippedAt (board : List Cell) (i : Nat) : Bool :=
  match board.get? i with
  | some c => c.isFlipped
  | none => false

/-- The `TURN_TIMEOUT` constant of App.tsx: shared time for PEEK and SELECT. -/
def TURN_TIMEOUT : Nat := 30

/-- The `QUIZ_TIMEOUT` constant of App.tsx. -/
def QUIZ_TIMEOUT : Nat := 10

/-- Row `i` of `checkBingo`: `board.slice(i*5, (i+1)*5).every(c => c.isFlipped)`. -/
def rowFull (board : List Cell) (i : Nat) : Bool :=
  ((board.drop (i * 5)).take 5).all (fun c => c.isFlipped)

/-- Column `i` of `checkBingo`: the loop over `j` testing `board[j*5+i].isFlipped`. -/
def colFull (board : List Cell) (i : Nat) : Bool :=
  (List.range 5).all (fun j => flippedAt board (j * 5 + i))

/-- First diagonal of `checkBingo`: `[0,6,12,18,24].every(i => board[i].isFlipped)`. -/
def diag1Full (board : List Cell) : Bool :=
  ([0, 6, 12, 18, 24] : List Nat).all (flippedAt board)

/-- Second diagonal of `checkBingo`: `[4,8,12,16,20].every(i => board[i].isFlipped)`. -/
def diag2Full (board : List Cell) : Bool :=
  ([4, 8, 12, 16, 20] : List Nat).all (flippedAt board)

/-- The `checkBingo` function of App.tsx: number of completed rows, plus completed columns,
plus one for each completed diagonal. -/
def checkBingo (board : List Cell) : Nat :=
  (List.range 5).countP (fun i => rowFull board i)
    + (List.range 5).countP (fun i => colFull board i)
    + (if diag1Full board then 1 else 0)
    + (if diag2Full board then 1 else 0)

/-- The twelve index sets named by the spec: 5 rows, 5 columns, and the two
diagonals with index sets {0,6,12,18,24} and {4,8,12,16,20}. -/
def lineIndexSets : List (List Nat) :=
  (List.range 5).map (fun i => [5 * i, 5 * i + 1, 5 * i + 2, 5 * i + 3, 5 * i + 4])
    ++ (List.range 5).map (fun i => [i, i + 5, i + 10, i + 15, i + 20])
    ++ [[0, 6, 12, 18, 24], [4, 8, 12, 16, 20]]

/-- Spec-side line counter: how many of the twelve index sets have all five
member cells flipped. -/
def specLineCount (board : List Cell) : Nat :=
  lineIndexSets.countP (fun L => L.all (flippedAt board))

lemma flippedAt_drop (l : List Cell) (n j : Nat) :
    flippedAt (l.drop n) j = flippedAt l (n + j) := by
  simp [flippedAt, List.get?_drop]

lemma take5_all (d : List Cell) (h : 5 ≤ d.length) :
    (d.take 5).all (fun c => c.isFlipped) =
      (flippedAt d 0 && flippedAt d 1 && flippedAt d 2 && flippedAt d 3 &&
        flippedAt d 4) := by
  rcases d with _ | ⟨a, _ | ⟨b, _ | ⟨c, _ | ⟨e, _ | ⟨f, r⟩⟩⟩⟩⟩ <;>
    simp_all [flippedAt, List.all, Bool.and_assoc]

lemma rowFull_eq (l : List Cell) (i : Nat) (h : 5 * i + 5 ≤ l.length) :
    rowFull l i =
      ([5 * i, 5 * i + 1, 5 * i + 2, 5 * i + 3, 5 * i + 4] : List Nat).all
        (flippedAt l) := by
  have hd : 5 ≤ (l.drop (i * 5)).length := by
    simp [List.length_drop]; omega
  unfold rowFull
  rw [take5_all _ hd]
  simp [flippedAt_drop, List.all, Nat.mul_comm, Bool.and_assoc]

lemma colFull_eq (l : List Cell) (i : Nat) :
    colFull l i =
      ([i, i + 5, i + 10, i + 15, i + 20] : List Nat).all (flippedAt l) := by
  simp [colFull, List.range_succ, List.all, Nat.add_comm]

lemma flippedAt_false_of_all_false {board : List Cell}
    (hb : ∀ c ∈ board, c.isFlipped = false) (j : Nat) :
    flippedAt board j = false := by
  unfold flippedAt
  cases hj : board.get? j with
  | none => rfl
  | some c => exact hb c (List.get?_mem hj)

lemma flippedAt_true_of_all_true {board : List Cell}
    (hb : ∀ c ∈ board, c.isFlipped = true) {j : Nat} (hj : j < board.length) :
    flippedAt board j = true := by
  unfold flippedAt
  cases h : board.get? j with
  | none => exact absurd (List.get?_eq_none.mp h) (by omega)
  | some c => exact hb c (List.get?_mem h)

/-- Claim C3: for every board of 25 cells in row-major order, `checkBingo`
counts exactly how many of the 5 rows, 5 columns, and the two diagonals with
index sets {0,6,12,18,24} and {4,8,12,16,20} have all 5 member cells flipped;
in particular it returns 0 for an all-unflipped board and 12 for an
all-flipped board. -/
theorem checkBingo_counts_spec_lines (board : List Cell)
    (h : board.length = 25) :
    checkBingo board = specLineCount board ∧
      ((∀ c ∈ board, c.isFlipped = false) → checkBingo board = 0) ∧
      ((∀ c ∈ board, c.isFlipped = true) → checkBingo board = 12) := by
  have hmain : checkBingo board = specLineCount board := by
    unfold checkBingo specLineCount lineIndexSets
    rw [List.countP_append, List.countP_append, List.countP_map, List.countP_map]
    have hrows : (List.range 5).countP
        ((fun L => L.all (flippedAt board)) ∘
          (fun i => [5 * i, 5 * i + 1, 5 * i + 2, 5 * i + 3, 5 * i + 4])) =
        (List.range 5).countP (fun i => rowFull board i) := by
      apply List.countP_congr
      intro i hi
      have hi5 : i < 5 := List.mem_range.mp hi
      simp only [Function.comp]
      rw [rowFull_eq board i (by omega)]
    have hcols : (List.range 5).countP
        ((fun L => L.all (flippedAt board)) ∘
          (fun i => [i, i + 5, i + 10, i + 15, i + 20])) =
        (List.range 5).countP (fun i => colFull board i) := by
      apply List.countP_congr
      intro i hi
      simp only [Function.comp]
      rw [colFull_eq board i]
    rw [hrows, hcols]
    have hdiag : ([[0, 6, 12, 18, 24], [4, 8, 12, 16, 20]] : List (List Nat)).countP
        (fun L => L.all (flippedAt board)) =
        (if diag1Full board then 1 else 0) + (if diag2Full board then 1 else 0) := by
      simp [List.countP_cons, diag1Full, diag2Full]
      exact Nat.add_comm _ _
    rw [hdiag]
    ring
  refine ⟨hmain, ?_, ?_⟩
  · intro hall
    rw [hmain]
    apply List.countP_eq_zero.mpr
    intro L hL
    have hne : L ≠ [] := by
      revert hL
      have : ∀ L ∈ lineIndexSets, L ≠ [] := by decide
      exact fun hL => this L hL
    cases L with
    | nil => exact absurd rfl hne
    | cons j t =>
      simp [List.all, flippedAt_false_of_all_false hall]
  · intro hall
    rw [hmain]
    have hlen : lineIndexSets.length = 12 := by decide
    rw [← hlen]
    apply List.countP_eq_length.mpr
    intro L hL
    have hmem : ∀ j ∈ L, j < 25 := by
      revert hL
      have : ∀ L ∈ lineIndexSets, ∀ j ∈ L, j < 25 := by decide
      exact fun hL => this L hL
    simp only [List.all_eq_true]
    intro j hj
    exact flippedAt_true_of_all_true hall (by rw [h]; exact hmem j hj)

/-- The `GamePhase` enum of types.ts. -/
inductive GamePhase where
  | SETUP | LOADING | TURN_START | PEEK | SELECT | QUIZ | EVALUATE | GAME_OVER
deriving DecidableEq

/-- Game mode of `GameSettings` in types.ts. -/
inductive GameMode where
  | STANDARD | DRAFT
deriving DecidableEq

/-- The `GameSettings` record of types.ts. -/
structure GameSettings where
  grade : String
  playerCount : Nat
  mode : GameMode
  winLines : Nat
deriving DecidableEq

/-- The `Player` record of types.ts. -/
structure Player where
  id : String
  name : String
  isAI : Bool
  board : List Cell
  score : Nat
  color : String
  bonusGauge : Nat
  hasShield : Bool
deriving DecidableEq

/-- Quiz direction of `QuizState` in types.ts. -/
inductive QuizType where
  | HANJA_TO_HUNEUM | HUNEUM_TO_HANJA
deriving DecidableEq

/-- A JS `Record<string, string>` modelled as a partial map; `answers[k]`
returns the stored string or `undefined` (here `none`). -/
def Answers : Type := String → Option String

/-- The empty record `{}`. -/
def Answers.empty : Answers := fun _ => none

/-- JS truthiness of `answers[k]`: `undefined` and the empty string are
falsy, every other string is truthy. -/
def truthy : Option String → Bool
  | some s => s != ""
  | none => false

/-- The `QuizState` record of types.ts. -/
structure QuizState where
  targetHanja : Option HanjaData
  type : QuizType
  options : List HanjaData
  correctOptionId : String
  answers : Answers
  resultsShown : Bool

/-- The sentinel `'TIMEOUT_WRONG'` written by the quiz-timeout branch. -/
def TIMEOUT_MARKER : String := "TIMEOUT_WRONG"

/-- The `handleQuizAnswer` handler of App.tsx restricted to the quiz value: if
`prev.answers[playerId]` is truthy the call returns `prev` unchanged,
otherwise it stores `optionId` under `playerId`. -/
def recordAnswer (q : QuizState) (playerId optionId : String) : QuizState :=
  if truthy (q.answers playerId) then q
  else { q with answers := fun k => if k = playerId then some optionId else q.answers k }

/-- The quiz-timeout branch of the countdown effect (App.tsx lines 166-178):
every player `p` with falsy `answers[p.id]` gets `'TIMEOUT_WRONG'` recorded;
all other keys keep their value. -/
def timeoutFill (players : List Player) (q : QuizState) : QuizState :=
  let missing := players.filter (fun p => !(truthy (q.answers p.id)))
  { q with answers := fun k =>
      if k ∈ missing.map Player.id then some TIMEOUT_MARKER
      else q.answers k }

/-- Model of `players.every(p => quizState.answers[p.id])` from the evaluation effect
(App.tsx line 313). -/
def allAnswered (players : List Player) (q : QuizState) : Bool :=
  players.all (fun p => truthy (q.answers p.id))

/-- The per-player body of `evaluateRound` (App.tsx lines 330-349): a player
whose stored answer strictly equals `correctOptionId` gets every cell whose
item id equals `correctOptionId` flipped and their score recomputed by
`checkBingo`; any other player is returned as-is. -/
def evalPlayer (q : QuizState) (p : Player) : Player :=
  if q.answers p.id = some q.correctOptionId then
    let updatedBoard := p.board.map (fun cell =>
      if cell.hanja.id = q.correctOptionId then { cell with isFlipped := true }
      else cell)
    { p with board := updatedBoard, score := checkBingo updatedBoard }
  else p

/-- The whole React component state of App.tsx that the engine reads and
writes. -/
structure GameState where
  phase : GamePhase
  settings : GameSettings
  players : List Player
  turnIndex : Nat
  peekedCardIds : List String
  quizState : Option QuizState
  timeLeft : Nat

/-- Model of `players[turnIndex]` (may be JS `undefined`). -/
def activePlayer (s : GameState) : Option Player :=
  s.players.get? s.turnIndex

/-- Model of `isMyTurn`, i.e. `activePlayer?.id === 'player-1'`. -/
def isMyTurn (s : GameState) : Bool :=
  match activePlayer s with
  | some p => p.id == "player-1"
  | none => false

/-- The timer-initialization effect (App.tsx lines 130-140): entering PEEK
resets the countdown to `TURN_TIMEOUT`, entering QUIZ resets it to
`QUIZ_TIMEOUT`, every other phase (SELECT in particular) leaves it alone. -/
def timerInitEffect (s : GameState) : GameState :=
  if s.phase = GamePhase.PEEK then { s with timeLeft := TURN_TIMEOUT }
  else if s.phase = GamePhase.QUIZ then { s with timeLeft := QUIZ_TIMEOUT }
  else s

/-- The `finishPeek` handler of App.tsx: unconditionally moves to SELECT and clears the
peeked cards; deliberately does not touch `timeLeft`. -/
def finishPeek (s : GameState) : GameState :=
  { s with phase := GamePhase.SELECT, peekedCardIds := [] }

/-- The `handlePeekClick` handler of App.tsx: guarded by phase, turn ownership, the cell
being unflipped, the card not being peeked already, and at most 3 peeks. -/
def handlePeekClick (s : GameState) (cell : Cell) : GameState :=
  if s.phase ≠ GamePhase.PEEK ∨ isMyTurn s = false ∨ cell.isFlipped then s
  else if cell.id ∈ s.peekedCardIds then s
  else if s.peekedCardIds.length < 3 then
    { s with peekedCardIds := s.peekedCardIds ++ [cell.id] }
  else s

/-- Quiz construction inside `handleSelectCard` (App.tsx lines 283-295).
`σd` and `σo` stand for the two `shuffle` calls and are assumed to permute
their argument; `allHanja` is `players[0].board.map(c => c.hanja)`. -/
def buildQuiz (hanja : HanjaData) (allHanja : List HanjaData)
    (isHanjaToHunEum : Bool)
    (σd σo : List HanjaData → List HanjaData) : QuizState :=
  let distractors := (σd (allHanja.filter (fun h => h.id ≠ hanja.id))).take 3
  let options := σo (hanja :: distractors)
  { targetHanja := some hanja
    type := if isHanjaToHunEum then QuizType.HANJA_TO_HUNEUM
            else QuizType.HUNEUM_TO_HANJA
    options := options
    correctOptionId := hanja.id
    answers := Answers.empty
    resultsShown := false }

/-- The `handleSelectCard` handler of App.tsx: builds the quiz from the human board's
item pool and unconditionally enters QUIZ. -/
def handleSelectCard (s : GameState) (hanja : HanjaData)
    (isHanjaToHunEum : Bool)
    (σd σo : List HanjaData → List HanjaData) : GameState :=
  let allHanja := ((s.players.get? 0).map (fun p => p.board.map Cell.hanja)).getD []
  { s with
      quizState := some (buildQuiz hanja allHanja isHanjaToHunEum σd σo)
      phase := GamePhase.QUIZ }

/-- The `handleQuizAnswer` handler of App.tsx at state level: `setQuizState(prev => ...)`
with the null guard. -/
def answerQuiz (s : GameState) (playerId optionId : String) : GameState :=
  match s.quizState with
  | none => s
  | some q => { s with quizState := some (recordAnswer q playerId optionId) }

/-- The countdown-expiry handler for QUIZ (App.tsx lines 150, 166-179): fires
only with `timeLeft = 0` in phase QUIZ on a live quiz whose results are not
yet shown, and then forces `'TIMEOUT_WRONG'` for every unanswered player. -/
def quizTimeoutStep (s : GameState) : GameState :=
  if s.timeLeft = 0 ∧ s.phase = GamePhase.QUIZ then
    match s.quizState with
    | some q =>
        if q.resultsShown then s
        else { s with quizState := some (timeoutFill s.players q) }
    | none => s
  else s

/-- The `evaluateRound` function of App.tsx as a state transformer: recompute every
player through `evalPlayer`, then either end the game on the first player
meeting `winLines` or advance the turn index and return to TURN_START. -/
def evaluateRound (s : GameState) : GameState :=
  match s.quizState with
  | none => s
  | some q =>
      let nextPlayers := s.players.map (evalPlayer q)
      match nextPlayers.find? (fun p => s.settings.winLines ≤ p.score) with
      | some _ => { s with players := nextPlayers, phase := GamePhase.GAME_OVER }
      | none =>
          { s with players := nextPlayers, phase := GamePhase.TURN_START,
                   turnIndex := (s.turnIndex + 1) % s.players.length,
                   quizState := none }

/-- The static fallback item pool of services/geminiService.ts, embedded in
full; its ids are the strings `'1'..'30'`. -/
def FALLBACK_HANJA : List HanjaData :=
  [ { id := "1", char := "天", hun := "하늘", eum := "천", hunEum := "하늘 천" },
    { id := "2", char := "地", hun := "땅", eum := "지", hunEum := "땅 지" },
    { id := "3", char := "玄", hun := "검을", eum := "현", hunEum := "검을 현" },
    { id := "4", char := "黄", hun := "누를", eum := "황", hunEum := "누를 황" },
    { id := "5", char := "宇", hun := "집", eum := "우", hunEum := "집 우" },
    { id := "6", char := "宙", hun := "집", eum := "주", hunEum := "집 주" },
    { id := "7", char := "洪", hun := "넓을", eum := "홍", hunEum := "넓을 홍" },
    { id := "8", char := "荒", hun := "거칠", eum := "황", hunEum := "거칠 황" },
    { id := "9", char := "日", hun := "날", eum := "일", hunEum := "날 일" },
    { id := "10", char := "月", hun := "달", eum := "월", hunEum := "달 월" },
    { id := "11", char := "盈", hun := "찰", eum := "영", hunEum := "찰 영" },
    { id := "12", char := "昃", hun := "기울", eum := "측", hunEum := "기울 측" },
    { id := "13", char := "辰", hun := "별", eum := "진", hunEum := "별 진" },
    { id := "14", char := "宿", hun := "잘", eum := "수", hunEum := "잘 수" },
    { id := "15", char := "列", hun := "벌일", eum := "열", hunEum := "벌일 열" },
    { id := "16", char := "張", hun := "베풀", eum := "장", hunEum := "베풀 장" },
    { id := "17", char := "寒", hun := "찰", eum := "한", hunEum := "찰 한" },
    { id := "18", char := "來", hun := "올", eum := "래", hunEum := "올 래" },
    { id := "19", char := "暑", hun := "더울", eum := "서", hunEum := "더울 서" },
    { id := "20", char := "往", hun := "갈", eum := "왕", hunEum := "갈 왕" },
    { id := "21", char := "秋", hun := "가을", eum := "추", hunEum := "가을 추" },
    { id := "22", char := "收", hun := "거둘", eum := "수", hunEum := "거둘 수" },
    { id := "23", char := "冬", hun := "겨울", eum := "동", hunEum := "겨울 동" },
    { id := "24", char := "藏", hun := "감출", eum := "장", hunEum := "감출 장" },
    { id := "25", char := "閏", hun := "윤달", eum := "윤", hunEum := "윤달 윤" },
    { id := "26", char := "餘", hun := "남을", eum := "여", hunEum := "남을 여" },
    { id := "27", char := "成", hun := "이룰", eum := "성", hunEum := "이룰 성" },
    { id := "28", char := "歲", hun := "해", eum := "세", hunEum := "해 세" },
    { id := "29", char := "律", hun := "법", eum := "률", hunEum := "법 률" },
    { id := "30", char := "呂", hun := "법칙", eum := "려", hunEum := "법칙 려" } ]

/-- No fallback item id ever equals the timeout sentinel, so with fallback
content `'TIMEOUT_WRONG'` can never be a real option id. -/
lemma fallback_id_ne_marker : ∀ h ∈ FALLBACK_HANJA, h.id ≠ TIMEOUT_MARKER := by
  decide

/-- A concrete item used in witnesses. -/
def hanjaEx1 : HanjaData :=
  { id := "1", char := "天", hun := "하늘", eum := "천", hunEum := "하늘 천" }

/-- A concrete flipped cell used in witnesses. -/
def cellExFlipped : Cell :=
  { id := "1-0", hanja := hanjaEx1, isFlipped := true, isPeeked := false,
    gridIndex := 0 }

/-- Witness for C3 at a concrete board: the all-flipped 25-cell board. -/
theorem checkBingo_counts_spec_lines_witness :
    (List.replicate 25 cellExFlipped).length = 25 ∧
      checkBingo (List.replicate 25 cellExFlipped) = 12 := by
  refine ⟨by decide, ?_⟩
  exact (checkBingo_counts_spec_lines _ (by decide)).2.2 (by decide)

/-- A concrete unflipped cell used in witnesses. -/
def cellExUnflipped : Cell :=
  { id := "1-0", hanja := hanjaEx1, isFlipped := false, isPeeked := false,
    gridIndex := 0 }

/-- A second concrete item used in witnesses. -/
def hanjaEx2 : HanjaData :=
  { id := "2", char := "地", hun := "땅", eum := "지", hunEum := "땅 지" }

/-- A concrete player used in witnesses. -/
def playerEx1 : Player :=
  { id := "player-1", name := "P1 나", isAI := false,
    board := [cellExUnflipped], score := 0, color := "#3b82f6",
    bonusGauge := 0, hasShield := false }

/-- A concrete AI player whose recorded answer will be the timeout marker. -/
def playerEx2 : Player :=
  { id := "player-2", name := "P2 AI", isAI := true,
    board := [cellExUnflipped], score := 0, color := "#ef4444",
    bonusGauge := 0, hasShield := false }

/-- A concrete quiz used in witnesses: player-1 answered correctly,
player-2 hit the timeout. -/
def quizEx : QuizState :=
  { targetHanja := some hanjaEx1
    type := QuizType.HANJA_TO_HUNEUM
    options := [hanjaEx1, hanjaEx2]
    correctOptionId := "1"
    answers := fun k =>
      if k = "player-1" then some "1"
      else if k = "player-2" then some TIMEOUT_MARKER
      else none
    resultsShown := true }

/-- Claim C1: `evaluateRound` maps the players pointwise; every player whose
recorded answer equals `correct_option_id` gets exactly the cells of their own
board whose item id equals `quiz.target_item.id` set to flipped and their
score recomputed as `checkBingo` of the updated board, while any player whose
recorded answer differs from `correct_option_id` (the timeout marker
included) is returned entirely unchanged.  The hypothesis
`q.correctOptionId = t.id` is the data-model invariant the spec states for
every constructed quiz. -/
theorem evaluateRound_per_player (players : List Player) (q : QuizState)
    (t : HanjaData) (ht : q.targetHanja = some t)
    (hc : q.correctOptionId = t.id) :
    (players.map (evalPlayer q)).length = players.length ∧
    ∀ i p, players.get? i = some p →
      ((q.answers p.id = some q.correctOptionId →
          (players.map (evalPlayer q)).get? i = some
            { p with
                board := p.board.map (fun c =>
                  if c.hanja.id = t.id then { c with isFlipped := true } else c),
                score := checkBingo (p.board.map (fun c =>
                  if c.hanja.id = t.id then { c with isFlipped := true }
                  else c)) }) ∧
        (q.answers p.id ≠ some q.correctOptionId →
          (players.map (evalPlayer q)).get? i = some p) ∧
        (q.correctOptionId ≠ TIMEOUT_MARKER →
          q.answers p.id = some TIMEOUT_MARKER →
          (players.map (evalPlayer q)).get? i = some p)) := by
  refine ⟨List.length_map _ _, ?_⟩
  intro i p hp
  have hm : (players.map (evalPlayer q)).get? i = some (evalPlayer q p) := by
    rw [List.get?_map, hp]; rfl
  refine ⟨?_, ?_, ?_⟩
  · intro hans
    rw [hm]
    unfold evalPlayer
    rw [if_pos hans, hc]
  · intro hans
    rw [hm]
    unfold evalPlayer
    rw [if_neg hans]
  · intro hne hans
    rw [hm]
    unfold evalPlayer
    rw [if_neg (by rw [hans]; exact fun hcon => hne (Option.some.inj hcon).symm)]

/-- Witness for C1: in the concrete two-player round, the correct answerer's
cell is flipped and rescored, and the timed-out player is unchanged. -/
theorem evaluateRound_per_player_witness :
    (([playerEx1, playerEx2].map (evalPlayer quizEx)).get? 0 = some
      { playerEx1 with
          board := playerEx1.board.map (fun c =>
            if c.hanja.id = hanjaEx1.id then { c with isFlipped := true }
            else c),
          score := checkBingo (playerEx1.board.map (fun c =>
            if c.hanja.id = hanjaEx1.id then { c with isFlipped := true }
            else c)) }) ∧
    (([playerEx1, playerEx2].map (evalPlayer quizEx)).get? 1 =
      some playerEx2) := by
  have h := evaluateRound_per_player [playerEx1, playerEx2] quizEx hanjaEx1
    rfl rfl
  exact ⟨(h.2 0 playerEx1 rfl).1 (by decide),
         (h.2 1 playerEx2 rfl).2.2 (by decide) (by decide)⟩

lemma find?_eq_some_split {α : Type} (p : α → Bool) (l : List α) (a : α)
    (h : l.find? p = some a) :
    ∃ l₁ l₂, l = l₁ ++ a :: l₂ ∧ (∀ b ∈ l₁, p b = false) ∧ p a = true := by
  induction l with
  | nil => simp [List.find?] at h
  | cons x xs ih =>
    by_cases hx : p x
    · rw [List.find?_cons_of_pos _ hx] at h
      refine ⟨[], xs, ?_, by simp, ?_⟩
      · simp [Option.some.inj h]
      · rw [Option.some.inj h] at hx; exact hx
    · rw [List.find?_cons_of_neg _ (by simpa using hx)] at h
      obtain ⟨l₁, l₂, hl, hfalse, hpa⟩ := ih h
      exact ⟨x :: l₁, l₂, by simp [hl], by
        intro b hb
        rcases List.mem_cons.mp hb with rfl | hb
        · simpa using hx
        · exact hfalse b hb, hpa⟩

/-- Claim C2: after round evaluation the phase becomes GAME_OVER exactly when
some recomputed player meets `winLines`; the winner selected by the code's
`find` is the first such player in array order; otherwise the phase becomes
TURN_START and `turnIndex` advances to `(turnIndex+1) % players.length`. -/
theorem evaluateRound_phase_decision (s : GameState) (q : QuizState)
    (hq : s.quizState = some q) :
    (evaluateRound s).players = s.players.map (evalPlayer q) ∧
    ((evaluateRound s).phase = GamePhase.GAME_OVER ↔
       ∃ p ∈ s.players.map (evalPlayer q), s.settings.winLines ≤ p.score) ∧
    (∀ w, (s.players.map (evalPlayer q)).find?
        (fun p => s.settings.winLines ≤ p.score) = some w →
       (evaluateRound s).phase = GamePhase.GAME_OVER ∧
       (evaluateRound s).turnIndex = s.turnIndex ∧
       s.settings.winLines ≤ w.score ∧
       ∃ l₁ l₂, s.players.map (evalPlayer q) = l₁ ++ w :: l₂ ∧
         ∀ p' ∈ l₁, p'.score < s.settings.winLines) ∧
    ((∀ p ∈ s.players.map (evalPlayer q), p.score < s.settings.winLines) →
       (evaluateRound s).phase = GamePhase.TURN_START ∧
       (evaluateRound s).turnIndex = (s.turnIndex + 1) % s.players.length ∧
       (evaluateRound s).quizState = none) := by
  unfold evaluateRound
  rw [hq]
  simp only
  cases hfind : (s.players.map (evalPlayer q)).find?
      (fun p => s.settings.winLines ≤ p.score) with
  | some w =>
    obtain ⟨l₁, l₂, hl, hfalse, hpa⟩ := find?_eq_some_split _ _ _ hfind
    refine ⟨rfl, ?_, ?_, ?_⟩
    · simp only [true_iff]
      exact ⟨w, by rw [hl]; exact List.mem_append_right _ (List.mem_cons_self _ _),
             by simpa using hpa⟩
    · intro w' hw'
      obtain rfl : w = w' := Option.some.inj hw'
      refine ⟨rfl, rfl, by simpa using hpa, l₁, l₂, hl, ?_⟩
      intro p' hp'
      have := hfalse p' hp'
      simpa using this
    · intro hall
      exfalso
      have hw : w ∈ s.players.map (evalPlayer q) := by
        rw [hl]; exact List.mem_append_right _ (List.mem_cons_self _ _)
      exact absurd (by simpa using hpa) (Nat.not_le.mpr (hall w hw))
  | none =>
    have hnone := List.find?_eq_none.mp hfind
    refine ⟨rfl, ?_, ?_, ?_⟩
    · simp only [iff_false]
      constructor
      · intro hcon
        exact absurd hcon (by simp)
      · rintro ⟨p, hp, hscore⟩
        exact absurd (by simpa using hscore : decide (s.settings.winLines ≤ p.score) = true)
          (by simpa using hnone p hp)
    · intro w hw
      exact absurd hw (by simp)
    · intro _
      exact ⟨rfl, rfl, rfl⟩

/-- A concrete game state sitting at the end of the example quiz round. -/
def stateExQuizDone : GameState :=
  { phase := GamePhase.QUIZ
    settings := { grade := "8급", playerCount := 2, mode := GameMode.STANDARD,
                  winLines := 1 }
    players := [playerEx1, playerEx2]
    turnIndex := 0
    peekedCardIds := []
    quizState := some quizEx
    timeLeft := 0 }

/-- Witness for C2: in the concrete round, flipping the correct answerer's
only cell completes lines (`win_lines = 1` is met), so the phase becomes
GAME_OVER. -/
theorem evaluateRound_phase_decision_witness :
    (evaluateRound stateExQuizDone).phase = GamePhase.GAME_OVER :=
  (evaluateRound_phase_decision stateExQuizDone quizEx rfl).2.1.mpr
    ⟨evalPlayer quizEx playerEx1, by decide, by decide⟩

/-- A quiz holding an empty-string answer entry: reachable only if an item id
were the empty string, but within the claim's universal quantification over
quiz states. -/
def quizExEmptyAns : QuizState :=
  { quizEx with answers := fun k => if k = "player-1" then some "" else none }

/-- Counterexample to C4 as stated: `player-1` already has an entry (the
empty string) in `answers`, yet `recordAnswer` is not a no-op — the JS guard
`if (prev.answers[playerId]) return prev` tests truthiness, and the empty
string is falsy, so the entry is overwritten. -/
theorem recordAnswer_counterexample :
    quizExEmptyAns.answers "player-1" = some "" ∧
    (recordAnswer quizExEmptyAns "player-1" "1").answers "player-1" =
      some "1" := by
  constructor <;> decide

/-- One answer-writing operation during a quiz's lifetime: an explicit
`handleQuizAnswer` call or the timeout fill. -/
inductive QuizOp where
  | record (playerId optionId : String)
  | timeout (players : List Player)

/-- Apply one operation to the quiz value. -/
def QuizOp.apply (op : QuizOp) (q : QuizState) : QuizState :=
  match op with
  | record pid oid => recordAnswer q pid oid
  | timeout ps => timeoutFill ps q

/-- Apply a sequence of operations left to right. -/
def runOps (q : QuizState) : List QuizOp → QuizState
  | [] => q
  | op :: ops => runOps (op.apply q) ops

lemma timeoutFill_preserves_truthy (ps : List Player) (q : QuizState)
    (k : String) (h : truthy (q.answers k) = true) :
    (timeoutFill ps q).answers k = q.answers k := by
  unfold timeoutFill
  simp only
  rw [if_neg]
  intro hmem
  obtain ⟨p, hp, hpk⟩ := List.mem_map.mp hmem
  have := (List.mem_filter.mp hp).2
  rw [hpk] at this
  simp [h] at this

lemma recordAnswer_preserves_truthy (q : QuizState) (pid oid k : String)
    (h : truthy (q.answers k) = true) :
    (recordAnswer q pid oid).answers k = q.answers k := by
  unfold recordAnswer
  by_cases hg : truthy (q.answers pid)
  · rw [if_pos hg]
  · rw [if_neg hg]
    simp only
    rw [if_neg]
    intro hk
    rw [hk] at h
    exact hg h

/-- Claim C4 (amended): `recordAnswer` is a no-op when the player already has
a truthy (non-empty) entry; when the player has no entry it adds exactly
`player_id → option_id`; and any non-empty stored answer survives every later
`recordAnswer` or timeout-fill operation unchanged (first non-empty write
wins). -/
theorem recordAnswer_write_once (q : QuizState) (playerId optionId : String) :
    (truthy (q.answers playerId) = true →
       recordAnswer q playerId optionId = q) ∧
    (q.answers playerId = none →
       (recordAnswer q playerId optionId).answers playerId = some optionId ∧
       (∀ k, k ≠ playerId →
          (recordAnswer q playerId optionId).answers k = q.answers k) ∧
       (recordAnswer q playerId optionId).options = q.options ∧
       (recordAnswer q playerId optionId).correctOptionId =
         q.correctOptionId) ∧
    (∀ v, v ≠ "" → q.answers playerId = some v →
       ∀ ops : List QuizOp, (runOps q ops).answers playerId = some v) := by
  refine ⟨?_, ?_, ?_⟩
  · intro h
    unfold recordAnswer
    rw [if_pos h]
  · intro h
    have hg : truthy (q.answers playerId) = false := by rw [h]; rfl
    unfold recordAnswer
    rw [if_neg (by rw [hg]; exact Bool.false_ne_true)]
    exact ⟨by simp, fun k hk => by simp [hk], rfl, rfl⟩
  · intro v hv hq ops
    induction ops generalizing q with
    | nil => exact hq
    | cons op ops ih =>
      have htruthy : truthy (q.answers playerId) = true := by
        rw [hq]; simpa [truthy] using hv
      apply ih
      cases op with
      | record pid oid =>
          rw [show (QuizOp.record pid oid).apply q = recordAnswer q pid oid
              from rfl,
            recordAnswer_preserves_truthy q pid oid playerId htruthy, hq]
      | timeout ps =>
          rw [show (QuizOp.timeout ps).apply q = timeoutFill ps q from rfl,
            timeoutFill_preserves_truthy ps q playerId htruthy, hq]

/-- Witness for the amended C4: player-1's recorded answer "1" survives a
conflicting write and a timeout fill. -/
theorem recordAnswer_write_once_witness :
    (runOps quizEx [QuizOp.record "player-1" "2",
        QuizOp.timeout [playerEx1, playerEx2]]).answers "player-1" =
      some "1" :=
  (recordAnswer_write_once quizEx "player-1" "2").2.2 "1" (by decide)
    (by decide) _

lemma truthy_isSome {o : Option String} (h : truthy o = true) : o.isSome := by
  cases o with
  | none => simp [truthy] at h
  | some s => rfl

/-- Claim C5: when the countdown reaches zero in QUIZ with results not yet
shown, the fill writes the timeout marker exactly for the players lacking an
answer, leaves every other key alone, makes `allAnswered` true (every current
player id becomes a key of `answers`), and the marker — which is never an
option id — can never score as correct.  The hypotheses `hvals`, `hopts` and
`hcorr` are the data-model invariants of a live quiz: stored answers are
option ids or the marker (all non-empty strings) and `correct_option_id` is
among the option ids. -/
theorem quizTimeout_fills_all (s : GameState) (q : QuizState)
    (hphase : s.phase = GamePhase.QUIZ) (htime : s.timeLeft = 0)
    (hq : s.quizState = some q) (hshown : q.resultsShown = false)
    (hvals : ∀ pid v, q.answers pid = some v → v ≠ "")
    (hopts : TIMEOUT_MARKER ∉ q.options.map HanjaData.id)
    (hcorr : q.correctOptionId ∈ q.options.map HanjaData.id) :
    (quizTimeoutStep s).quizState = some (timeoutFill s.players q) ∧
    (∀ p ∈ s.players, q.answers p.id = none →
       (timeoutFill s.players q).answers p.id = some TIMEOUT_MARKER) ∧
    (∀ p ∈ s.players, q.answers p.id ≠ none →
       (timeoutFill s.players q).answers p.id = q.answers p.id) ∧
    (∀ k, k ∉ s.players.map Player.id →
       (timeoutFill s.players q).answers k = q.answers k) ∧
    allAnswered s.players (timeoutFill s.players q) = true ∧
    (∀ p ∈ s.players, ((timeoutFill s.players q).answers p.id).isSome) ∧
    TIMEOUT_MARKER ≠ q.correctOptionId := by
  have htruthy_of_some : ∀ pid, q.answers pid ≠ none →
      truthy (q.answers pid) = true := by
    intro pid hne
    cases hv : q.answers pid with
    | none => exact absurd hv hne
    | some v =>
        have := hvals pid v hv
        simpa [truthy] using this
  have hfillmiss : ∀ p ∈ s.players, q.answers p.id = none →
      (timeoutFill s.players q).answers p.id = some TIMEOUT_MARKER := by
    intro p hp hnone
    unfold timeoutFill
    simp only
    rw [if_pos]
    exact List.mem_map.mpr ⟨p, List.mem_filter.mpr ⟨hp, by simp [hnone, truthy]⟩, rfl⟩
  have hfillkeep : ∀ p ∈ s.players, q.answers p.id ≠ none →
      (timeoutFill s.players q).answers p.id = q.answers p.id := by
    intro p _ hne
    exact timeoutFill_preserves_truthy s.players q p.id (htruthy_of_some _ hne)
  have hother : ∀ k, k ∉ s.players.map Player.id →
      (timeoutFill s.players q).answers k = q.answers k := by
    intro k hk
    unfold timeoutFill
    simp only
    rw [if_neg]
    intro hmem
    obtain ⟨p, hp, hpk⟩ := List.mem_map.mp hmem
    exact hk (List.mem_map.mpr ⟨p, (List.mem_filter.mp hp).1, hpk⟩)
  have hall : allAnswered s.players (timeoutFill s.players q) = true := by
    unfold allAnswered
    rw [List.all_eq_true]
    intro p hp
    cases hv : q.answers p.id with
    | none =>
        rw [hfillmiss p hp hv]
        decide
    | some v =>
        rw [hfillkeep p hp (by rw [hv]; exact fun h => Option.noConfusion h), hv]
        simpa [truthy] using hvals p.id v hv
  refine ⟨?_, hfillmiss, hfillkeep, hother, hall, ?_, ?_⟩
  · unfold quizTimeoutStep
    rw [if_pos ⟨htime, hphase⟩, hq]
    simp only
    rw [hshown]
    rfl
  · intro p hp
    apply truthy_isSome
    exact List.all_eq_true.mp hall p hp
  · intro hmarker
    exact hopts (hmarker ▸ hcorr)

/-- A quiz where only player-1 has answered and results are not yet shown. -/
def quizExHalfDone : QuizState :=
  { quizEx with
      answers := fun k => if k = "player-1" then some "1" else none
      resultsShown := false }

/-- The game state just as the quiz countdown hits zero. -/
def stateExTimeout : GameState :=
  { stateExQuizDone with quizState := some quizExHalfDone }

/-- Witness for C5: after the forced fill at the concrete timeout state,
every player has an answer. -/
theorem quizTimeout_fills_all_witness :
    allAnswered stateExTimeout.players
      (timeoutFill stateExTimeout.players quizExHalfDone) = true :=
  (quizTimeout_fills_all stateExTimeout quizExHalfDone rfl rfl rfl rfl
    (by
      intro pid v h
      by_cases hp : pid = "player-1"
      · rw [hp] at h
        simp only [quizExHalfDone, if_pos rfl] at h
        rw [← Option.some.inj h]
        decide
      · simp [quizExHalfDone, hp] at h)
    (by decide) (by decide)).2.2.2.2.1

/-- Claim C6: entering PEEK initializes the shared countdown to 30; the
`finishPeek` transition to SELECT leaves `timeLeft` untouched and the timer
effect does not reset on SELECT; entering QUIZ resets the countdown to 10
whatever value was carried over. -/
theorem countdown_discipline (s : GameState) :
    (s.phase = GamePhase.PEEK → (timerInitEffect s).timeLeft = 30) ∧
    ((finishPeek s).timeLeft = s.timeLeft ∧
      (finishPeek s).phase = GamePhase.SELECT) ∧
    (s.phase = GamePhase.SELECT → (timerInitEffect s).timeLeft = s.timeLeft) ∧
    (s.phase = GamePhase.QUIZ → (timerInitEffect s).timeLeft = 10) := by
  refine ⟨?_, ⟨rfl, rfl⟩, ?_, ?_⟩ <;>
    intro h <;>
    simp [timerInitEffect, h, TURN_TIMEOUT, QUIZ_TIMEOUT]

/-- A concrete state in PEEK with a partially elapsed countdown. -/
def stateExPeek : GameState :=
  { stateExQuizDone with
      phase := GamePhase.PEEK
      quizState := none
      timeLeft := 17 }

/-- A concrete state in SELECT with a partially elapsed countdown. -/
def stateExSelect : GameState :=
  { stateExPeek with phase := GamePhase.SELECT }

/-- Witness for C6 at concrete states: PEEK resets to 30, `finishPeek` keeps
the remaining 17 units, SELECT keeps them too, QUIZ resets to 10. -/
theorem countdown_discipline_witness :
    (timerInitEffect stateExPeek).timeLeft = 30 ∧
    (finishPeek stateExPeek).timeLeft = 17 ∧
    (timerInitEffect stateExSelect).timeLeft = 17 ∧
    (timerInitEffect { stateExSelect with
        phase := GamePhase.QUIZ }).timeLeft = 10 :=
  ⟨(countdown_discipline stateExPeek).1 rfl,
   (countdown_discipline stateExPeek).2.1.1,
   (countdown_discipline stateExSelect).2.2.1 rfl,
   (countdown_discipline { stateExSelect with
      phase := GamePhase.QUIZ }).2.2.2 rfl⟩

/-- Claim C7: quiz construction yields 4 pairwise-distinct options that are
the target plus 3 distractors drawn from the pool minus the target,
`correct_option_id = target.id` appears among the options' ids, and `answers`
starts empty; preconditions are that the two shuffles permute their input,
pool ids are distinct, and at least 3 distractors exist. -/
theorem buildQuiz_options_valid (hanja : HanjaData) (pool : List HanjaData)
    (b : Bool) (σd σo : List HanjaData → List HanjaData)
    (hσd : ∀ l, (σd l).Perm l) (hσo : ∀ l, (σo l).Perm l)
    (hn : (pool.map HanjaData.id).Nodup)
    (h3 : 3 ≤ (pool.filter (fun h => h.id ≠ hanja.id)).length) :
    (buildQuiz hanja pool b σd σo).options.length = 4 ∧
    ((buildQuiz hanja pool b σd σo).options.map HanjaData.id).Nodup ∧
    (buildQuiz hanja pool b σd σo).options.Nodup ∧
    hanja ∈ (buildQuiz hanja pool b σd σo).options ∧
    (∀ o ∈ (buildQuiz hanja pool b σd σo).options, o.id ≠ hanja.id →
       o ∈ pool) ∧
    (buildQuiz hanja pool b σd σo).correctOptionId = hanja.id ∧
    (buildQuiz hanja pool b σd σo).correctOptionId ∈
      (buildQuiz hanja pool b σd σo).options.map HanjaData.id ∧
    (∀ k, (buildQuiz hanja pool b σd σo).answers k = none) := by
  set filtered := pool.filter (fun h => h.id ≠ hanja.id) with hfiltered
  set ds := (σd filtered).take 3 with hds
  have hperm : ((buildQuiz hanja pool b σd σo).options).Perm (hanja :: ds) :=
    hσo _
  have hds_sub : ds.Sublist (σd filtered) := List.take_sublist _ _
  have hds_mem : ∀ d ∈ ds, d ∈ filtered := fun d hd =>
    (hσd filtered).mem_iff.mp (hds_sub.subset hd)
  have hds_pool : ∀ d ∈ ds, d ∈ pool := fun d hd =>
    (List.mem_filter.mp (hds_mem d hd)).1
  have hds_ne : ∀ d ∈ ds, d.id ≠ hanja.id := by
    intro d hd
    have := (List.mem_filter.mp (hds_mem d hd)).2
    simpa using this
  have hds_len : ds.length = 3 := by
    rw [hds, List.length_take, (hσd filtered).length_eq]
    omega
  have hfilt_nodup : (filtered.map HanjaData.id).Nodup :=
    (List.Sublist.map HanjaData.id (List.filter_sublist pool)).nodup hn
  have hσd_nodup : ((σd filtered).map HanjaData.id).Nodup :=
    (((hσd filtered).map HanjaData.id).nodup_iff).mpr hfilt_nodup
  have hds_nodup : (ds.map HanjaData.id).Nodup :=
    (List.Sublist.map HanjaData.id hds_sub).nodup hσd_nodup
  have hcons_nodup : ((hanja :: ds).map HanjaData.id).Nodup := by
    rw [List.map_cons, List.nodup_cons]
    exact ⟨fun hmem => by
      obtain ⟨d, hd, hid⟩ := List.mem_map.mp hmem
      exact hds_ne d hd hid, hds_nodup⟩
  have hids_nodup : ((buildQuiz hanja pool b σd σo).options.map
      HanjaData.id).Nodup :=
    ((hperm.map HanjaData.id).nodup_iff).mpr hcons_nodup
  refine ⟨?_, hids_nodup, ?_, ?_, ?_, rfl, ?_, fun _ => rfl⟩
  · rw [hperm.length_eq, List.length_cons, hds_len]
  · exact hids_nodup.of_map ..
  · exact hperm.mem_iff.mpr (List.mem_cons_self _ _)
  · intro o ho hne
    rcases List.mem_cons.mp (hperm.mem_iff.mp ho) with rfl | hmem
    · exact absurd rfl hne
    · exact hds_pool o hmem
  · exact List.mem_map.mpr ⟨hanja, hperm.mem_iff.mpr (List.mem_cons_self _ _),
      rfl⟩

/-- The `COLORS` constant of App.tsx. -/
def COLORS : List String := ["#3b82f6", "#ef4444", "#22c55e", "#f59e0b"]

/-- Board construction inside `startGame` (App.tsx lines 89-95): the shuffled
pool mapped to fresh unflipped cells carrying their grid index; `i` is the
player index used in the cell id `${h.id}-${i}`. -/
def mkBoard (pool : List HanjaData) (σ : List HanjaData → List HanjaData)
    (i : Nat) : List Cell :=
  (σ pool).enum.map (fun x =>
    { id := x.2.id ++ "-" ++ toString i
      hanja := x.2
      isFlipped := false
      isPeeked := false
      gridIndex := x.1 })

/-- Player construction inside `startGame` (App.tsx lines 85-100); `σ i` is
the shuffle used for player `i`'s board. -/
def mkPlayers (settings : GameSettings) (pool : List HanjaData)
    (σ : Nat → List HanjaData → List HanjaData) : List Player :=
  (List.range settings.playerCount).map (fun i =>
    { id := "player-" ++ toString (i + 1)
      name := if i = 0 then "P1 나" else "P" ++ toString (i + 1) ++ " AI"
      isAI := i != 0
      board := mkBoard pool (σ i) i
      score := 0
      color := COLORS.getD i ""
      bonusGauge := 0
      hasShield := false })

/-- Model of `setQuizState(prev => ({ ...prev, resultsShown: true }))` from the
evaluation effect (App.tsx line 316). -/
def showResultsStep (s : GameState) : GameState :=
  match s.quizState with
  | none => s
  | some q => { s with quizState := some { q with resultsShown := true } }

/-- Cell `j` of player `i`'s board, when both exist. -/
def cellAt (s : GameState) (i j : Nat) : Option Cell :=
  (s.players.get? i).bind (fun p => p.board.get? j)

/-- Every state change the App.tsx component performs during a running game:
the player-facing handlers, the AI-driven calls (which reuse the same
handlers), the timer effects, the reveal step, round evaluation, and the
restart button. -/
inductive Step : GameState → GameState → Prop where
  | peekClick (s : GameState) (cell : Cell) : Step s (handlePeekClick s cell)
  | peekDone (s : GameState) : Step s (finishPeek s)
  | selectCard (s : GameState) (hanja : HanjaData) (b : Bool)
      (σd σo : List HanjaData → List HanjaData) :
      Step s (handleSelectCard s hanja b σd σo)
  | quizAnswer (s : GameState) (pid oid : String) :
      Step s (answerQuiz s pid oid)
  | quizTimeout (s : GameState) : Step s (quizTimeoutStep s)
  | reveal (s : GameState) : Step s (showResultsStep s)
  | evalRound (s : GameState) : Step s (evaluateRound s)
  | timerInit (s : GameState) : Step s (timerInitEffect s)
  | tick (s : GameState) : Step s { s with timeLeft := s.timeLeft - 1 }
  | turnBegin (s : GameState) :
      Step s { s with peekedCardIds := [], phase := GamePhase.PEEK }
  | resetClick (s : GameState) : Step s { s with phase := GamePhase.SETUP }

lemma players_handlePeekClick (s : GameState) (cell : Cell) :
    (handlePeekClick s cell).players = s.players := by
  unfold handlePeekClick
  split
  · rfl
  · split
    · rfl
    · split <;> rfl

lemma players_answerQuiz (s : GameState) (pid oid : String) :
    (answerQuiz s pid oid).players = s.players := by
  unfold answerQuiz
  split <;> rfl

lemma players_quizTimeoutStep (s : GameState) :
    (quizTimeoutStep s).players = s.players := by
  unfold quizTimeoutStep
  split
  · split
    · split <;> rfl
    · rfl
  · rfl

lemma players_showResultsStep (s : GameState) :
    (showResultsStep s).players = s.players := by
  unfold showResultsStep
  split <;> rfl

lemma players_timerInitEffect (s : GameState) :
    (timerInitEffect s).players = s.players := by
  unfold timerInitEffect
  split
  · rfl
  · split <;> rfl

lemma cellAt_of_players_eq {s s' : GameState} (h : s'.players = s.players)
    (i j : Nat) : cellAt s' i j = cellAt s i j := by
  rw [cellAt, cellAt, h]

lemma evalPlayer_board_mono (q : QuizState) (p : Player) (j : Nat) (c : Cell)
    (hc : p.board.get? j = some c) (hf : c.isFlipped = true) :
    ∃ c', (evalPlayer q p).board.get? j = some c' ∧ c'.isFlipped = true := by
  unfold evalPlayer
  split
  · refine ⟨if c.hanja.id = q.correctOptionId then { c with isFlipped := true }
      else c, ?_, ?_⟩
    · show (p.board.map _).get? j = _
      rw [List.get?_map, hc]
      rfl
    · split
      · rfl
      · exact hf
  · exact ⟨c, hc, hf⟩

/-- Claim C8: cell flipping is monotonic.  Board construction (`startGame`)
creates boards whose cells are all unflipped, and every subsequent operation
of the engine — peeking, finishing the peek, selecting a card, answering the
quiz, the timeout fill, the reveal step, round evaluation, timer effects,
turn changes and reset — preserves every already-flipped cell of every
player's board. -/
theorem isFlipped_monotonic :
    (∀ s s', Step s s' → ∀ i j c, cellAt s i j = some c →
       c.isFlipped = true →
       ∃ c', cellAt s' i j = some c' ∧ c'.isFlipped = true) ∧
    (∀ settings pool σ p c, p ∈ mkPlayers settings pool σ → c ∈ p.board →
       c.isFlipped = false) := by
  constructor
  · intro s s' hstep i j c hc hf
    cases hstep with
    | peekClick cell =>
        exact ⟨c, by rwa [cellAt_of_players_eq (players_handlePeekClick s cell)], hf⟩
    | peekDone => exact ⟨c, hc, hf⟩
    | selectCard hanja b σd σo => exact ⟨c, hc, hf⟩
    | quizAnswer pid oid =>
        exact ⟨c, by rwa [cellAt_of_players_eq (players_answerQuiz s pid oid)], hf⟩
    | quizTimeout =>
        exact ⟨c, by rwa [cellAt_of_players_eq (players_quizTimeoutStep s)], hf⟩
    | reveal =>
        exact ⟨c, by rwa [cellAt_of_players_eq (players_showResultsStep s)], hf⟩
    | timerInit =>
        exact ⟨c, by rwa [cellAt_of_players_eq (players_timerInitEffect s)], hf⟩
    | tick => exact ⟨c, hc, hf⟩
    | turnBegin => exact ⟨c, hc, hf⟩
    | resetClick => exact ⟨c, hc, hf⟩
    | evalRound =>
        unfold evaluateRound
        cases hq : s.quizState with
        | none => exact ⟨c, hc, hf⟩
        | some q =>
            obtain ⟨p, hp, hpc⟩ := Option.bind_eq_some.mp hc
            have hmap : ((s.players.map (evalPlayer q)).get? i) =
                some (evalPlayer q p) := by
              rw [List.get?_map, hp]; rfl
            obtain ⟨c', hc', hf'⟩ := evalPlayer_board_mono q p j c hpc hf
            cases hfind : (s.players.map (evalPlayer q)).find?
                (fun p => s.settings.winLines ≤ p.score) with
            | some w =>
                refine ⟨c', ?_, hf'⟩
                rw [cellAt]
                simp only [hfind, hmap]
                exact hc'
            | none =>
                refine ⟨c', ?_, hf'⟩
                rw [cellAt]
                simp only [hfind, hmap]
                exact hc'
  · intro settings pool σ p c hp hc
    obtain ⟨i, _, rfl⟩ := List.mem_map.mp hp
    obtain ⟨x, _, rfl⟩ := List.mem_map.mp hc
    rfl

/-- Witness for C8: evaluating the concrete winning round keeps the already
flipped cell flipped. -/
theorem isFlipped_monotonic_witness :
    ∃ c', cellAt (evaluateRound { stateExQuizDone with
        players := [{ playerEx1 with board := [cellExFlipped] }] }) 0 0 =
          some c' ∧ c'.isFlipped = true :=
  isFlipped_monotonic.1 _ _
    (Step.evalRound { stateExQuizDone with
        players := [{ playerEx1 with board := [cellExFlipped] }] })
    0 0 cellExFlipped (by decide) (by decide)

/-- A third concrete item used in witnesses. -/
def hanjaEx3 : HanjaData :=
  { id := "3", char := "玄", hun := "검을", eum := "현", hunEum := "검을 현" }

/-- A fourth concrete item used in witnesses. -/
def hanjaEx4 : HanjaData :=
  { id := "4", char := "黄", hun := "누를", eum := "황", hunEum := "누를 황" }

/-- Witness for C7 with a 4-item pool and the identity shuffle. -/
theorem buildQuiz_options_valid_witness :
    (buildQuiz hanjaEx1 [hanjaEx1, hanjaEx2, hanjaEx3, hanjaEx4] true
        (fun l => l) (fun l => l)).options.length = 4 ∧
    hanjaEx1 ∈ (buildQuiz hanjaEx1 [hanjaEx1, hanjaEx2, hanjaEx3, hanjaEx4]
        true (fun l => l) (fun l => l)).options := by
  have h := buildQuiz_options_valid hanjaEx1
    [hanjaEx1, hanjaEx2, hanjaEx3, hanjaEx4] true (fun l => l) (fun l => l)
    (fun l => List.Perm.refl l) (fun l => List.Perm.refl l)
    (by decide) (by decide)
  exact ⟨h.1, h.2.2.2.1⟩

/-- Claim C9 (amended): the entry points that do carry internal guards.
`handlePeekClick` is a silent no-op outside PEEK, for a non-current-turn
actor, on a flipped cell, or on an already-peeked card; `answerQuiz` is a
silent no-op when no quiz exists or the player already has a truthy answer.
(`finishPeek` and `handleSelectCard` carry no internal guard — see the
counterexample — their callers enforce phase legality.) -/
theorem entry_point_guards (s : GameState) (cell : Cell) (pid oid : String) :
    (s.phase ≠ GamePhase.PEEK → handlePeekClick s cell = s) ∧
    (isMyTurn s = false → handlePeekClick s cell = s) ∧
    (cell.isFlipped = true → handlePeekClick s cell = s) ∧
    (cell.id ∈ s.peekedCardIds → handlePeekClick s cell = s) ∧
    (s.quizState = none → answerQuiz s pid oid = s) ∧
    (∀ q, s.quizState = some q → truthy (q.answers pid) = true →
       answerQuiz s pid oid = s) := by
  refine ⟨?_, ?_, ?_, ?_, ?_, ?_⟩
  · intro h
    unfold handlePeekClick
    rw [if_pos (Or.inl h)]
  · intro h
    unfold handlePeekClick
    rw [if_pos (Or.inr (Or.inl h))]
  · intro h
    unfold handlePeekClick
    rw [if_pos (Or.inr (Or.inr h))]
  · intro h
    simp [handlePeekClick, h]
  · intro h
    unfold answerQuiz
    rw [h]
  · intro q hq htr
    have hrec : recordAnswer q pid oid = q := by
      unfold recordAnswer
      rw [if_pos htr]
    unfold answerQuiz
    rw [hq]
    show { s with quizState := some (recordAnswer q pid oid) } = s
    rw [hrec, ← hq]

/-- Witness for the amended C9: at the concrete QUIZ state a peek click and a
duplicate answer are both ignored. -/
theorem entry_point_guards_witness :
    handlePeekClick stateExQuizDone cellExUnflipped = stateExQuizDone ∧
    answerQuiz stateExQuizDone "player-1" "2" = stateExQuizDone :=
  ⟨(entry_point_guards stateExQuizDone cellExUnflipped "player-1" "2").1
      (by decide),
   (entry_point_guards stateExQuizDone cellExUnflipped "player-1" "2").2.2.2.2.2
      quizEx rfl (by decide)⟩

/-- Counterexample to C9 as stated: `finishPeek` invoked while the phase is
QUIZ (not PEEK) is not a no-op — it has no internal guard and forces the
phase to SELECT.  (`handleSelectCard` likewise carries no guard; the source
relies on call-site checks such as `phaseRef.current === GamePhase.SELECT`.) -/
theorem finishPeek_unguarded_counterexample :
    stateExQuizDone.phase = GamePhase.QUIZ ∧
    stateExQuizDone.phase ≠ GamePhase.PEEK ∧
    (finishPeek stateExQuizDone).phase = GamePhase.SELECT ∧
    (finishPeek stateExQuizDone).phase ≠ stateExQuizDone.phase := by
  refine ⟨rfl, ?_, rfl, ?_⟩ <;> decide

/-- Active-turn AI quiz answer (App.tsx lines 228-231): on the incorrect
branch the shuffle runs over ALL four options — the correct one included —
and the first element's id is submitted. -/
def aiActiveAnswerId (q : QuizState) (isCorrect : Bool)
    (σ : List HanjaData → List HanjaData) : String :=
  if isCorrect then q.correctOptionId
  else ((σ q.options).map HanjaData.id).headD ""

/-- Bystander AI quiz answer (App.tsx lines 250-253): the incorrect branch
shuffles only the non-correct options; the JS `|| quizState.options[0].id`
falls back to the first option when the shuffled pick is absent or its id is
the empty string. -/
def aiBystanderAnswerId (q : QuizState) (isCorrect : Bool)
    (σ : List HanjaData → List HanjaData) : String :=
  if isCorrect then q.correctOptionId
  else
    match (σ (q.options.filter (fun o => o.id ≠ q.correctOptionId))).head? with
    | some h =>
        if h.id = "" then (q.options.map HanjaData.id).headD "" else h.id
    | none => (q.options.map HanjaData.id).headD ""

/-- Claim C10 (amended): only the bystander-AI incorrect branch draws from
the non-correct options; given some non-correct option exists and option ids
are non-empty, its submission never equals `correct_option_id`.  (The
active-turn AI's incorrect branch can return the correct id — see the
counterexample.) -/
theorem bystander_incorrect_never_correct (q : QuizState)
    (σ : List HanjaData → List HanjaData) (hσ : ∀ l, (σ l).Perm l)
    (hne : ∃ o ∈ q.options, o.id ≠ q.correctOptionId)
    (hids : ∀ o ∈ q.options, o.id ≠ "") :
    aiBystanderAnswerId q false σ ≠ q.correctOptionId := by
  unfold aiBystanderAnswerId
  rw [if_neg (by simp)]
  set filtered := q.options.filter (fun o => o.id ≠ q.correctOptionId)
    with hfiltered
  have hfne : filtered ≠ [] := by
    obtain ⟨o, ho, hone⟩ := hne
    intro hnil
    have : o ∈ filtered := List.mem_filter.mpr ⟨ho, by simpa using hone⟩
    rw [hnil] at this
    exact List.not_mem_nil o this
  have hσne : σ filtered ≠ [] := by
    intro hnil
    exact hfne (List.Perm.eq_nil ((hσ filtered).symm.trans (hnil ▸ List.Perm.refl _)))
  cases hh : (σ filtered).head? with
  | none => exact absurd (List.head?_eq_none_iff.mp hh) hσne
  | some h =>
      have hmem : h ∈ filtered :=
        (hσ filtered).subset (List.mem_of_mem_head? hh)
      have hfilt := List.mem_filter.mp hmem
      have hno : h.id ≠ q.correctOptionId := by simpa using hfilt.2
      have hnz : h.id ≠ "" := hids h hfilt.1
      show (if h.id = "" then (q.options.map HanjaData.id).headD ""
        else h.id) ≠ q.correctOptionId
      rw [if_neg hnz]
      exact hno

/-- Witness for the amended C10: with the concrete quiz and the identity
shuffle, the bystander incorrect branch answers "2", not the correct "1". -/
theorem bystander_incorrect_never_correct_witness :
    aiBystanderAnswerId quizEx false (fun l => l) ≠ quizEx.correctOptionId :=
  bystander_incorrect_never_correct quizEx (fun l => l)
    (fun l => List.Perm.refl l)
    ⟨hanjaEx2, by decide, by decide⟩
    (by decide)

/-- Counterexample to C10 as stated: the active-turn AI's incorrect branch
(`shuffle<HanjaData>(quizState.options)[0].id`) does not exclude the correct
option — with the identity permutation (a possible shuffle outcome) it
submits exactly `correct_option_id`. -/
theorem aiActive_incorrect_can_be_correct :
    aiActiveAnswerId quizEx false (fun l => l) = quizEx.correctOptionId := by
  decide

end HanBingo
